import Mathlib

/-!
Shallow embedding of the config-hub Configuration Release & Propagation
Engine (Go source) in Lean 4, together with theorems settling the frozen
claims about its specification.

Conventions:
* Go `int` / `int64` values are modelled as `Int` (or `Nat` where the source
  guarantees non-negativity); 32-bit overflow is made explicit with `% 2^32`.
* Fallible persistent-store operations return `Except GoErr α` and the
  possibility of an I/O failure of an individual store call is made explicit
  by boolean failure-injection parameters (`true` = that call's write fails).
* Byte strings handed to hash functions are modelled as `List Nat`
  (each entry < 256, the UTF-8 bytes of the Go string).
-/

namespace ConfigHub

/-- Typed service-level errors of the Go source (`errors.New` values in
`internal/service`).  Each constructor corresponds to one `Err…` variable
or ad-hoc `errors.New` in the source. -/
inductive GoErr where
  | configNotFound          -- ErrConfigNotFound
  | versionNotFound         -- ErrVersionNotFound
  | invalidJSON             -- ErrInvalidJSON
  | grayReleaseNotFound     -- ErrGrayReleaseNotFound
  | grayReleaseActive       -- ErrGrayReleaseActive
  | onlyPromoteGray         -- errors.New("只能提升灰度发布")
  | onlyCancelGray          -- errors.New("只能取消灰度发布")
  | storeFailure            -- a gorm / persistent-store I/O error
  deriving DecidableEq, Repr

/-- Source `model.Config` (internal/model/config.go): a configuration document. -/
structure Config where
  id             : Int
  projectID      : Int
  name           : String
  nspace         : String   -- source field Namespace (Lean keyword)
  environment    : String
  fileType       : String
  currentVersion : Int
  deriving DecidableEq, Repr

/-- Source `model.ConfigVersion` (internal/model/config.go): an immutable version row. -/
structure ConfigVersion where
  configID      : Int
  version       : Int
  content       : String
  commitHash    : String
  commitMessage : String
  author        : String
  deriving DecidableEq, Repr

/-- Source `model.GrayRules` (internal/model/user.go).  The source stores this
structure JSON-serialized in `Release.GrayRules`; since `json.Marshal`
followed by `json.Unmarshal` round-trips this struct, the embedding keeps
it structurally. -/
structure GrayRules where
  ruleType   : String      -- field `Type`: percentage, client_id, ip_range
  percentage : Int
  clientIDs  : List String
  ipRanges   : List String
  deriving DecidableEq, Repr

/-- Source `model.Release` (internal/model/user.go): a release row.  `releasedAt`
is the `gorm:"autoCreateTime"` timestamp, modelled as a Nat drawn from a
monotone counter. -/
structure Release where
  id             : Int
  projectID      : Int
  configID       : Int
  version        : Int
  environment    : String
  status         : String
  releaseType    : String
  grayRules      : GrayRules
  grayPercentage : Int
  releasedBy     : String
  releasedAt     : Nat
  deriving DecidableEq, Repr

/-! ## FNV-1a hashing and percentage bucketing (part_013, matchPercentage) -/

/-- One step of 32-bit FNV-1a (`hash/fnv`, `fnv.New32a`): xor the byte in,
then multiply by the FNV prime 16777619, mod 2^32. -/
def fnv32aStep (h : Nat) (b : Nat) : Nat :=
  ((h ^^^ b) * 16777619) % 4294967296

/-- 32-bit FNV-1a digest of a byte sequence; offset basis 2166136261
(`h := fnv.New32a(); h.Write(bytes); h.Sum32()`). -/
def fnv32a (bytes : List Nat) : Nat :=
  bytes.foldl fnv32aStep 2166136261

/-- Source `GrayReleaseService.matchPercentage` (part_013):
percentage ≤ 0 never matches, ≥ 100 always matches, otherwise the caller
is in iff `fnv32a(clientID) % 100 < percentage`. -/
def matchPercentage (clientID : List Nat) (percentage : Int) : Bool :=
  if percentage ≤ 0 then false
  else if percentage ≥ 100 then true
  else (fnv32a clientID % 100 : Int) < percentage

/-! ## Textual line diff (part_008, VersionService.diffContent) -/

/-- Source `service.DiffLine` (part_008): one entry of the diff output.
The `type` field ranges over add / remove / unchanged. -/
structure DiffLine where
  lineType : String
  lineNum  : Int
  content  : String
  deriving DecidableEq, Repr

/-- Split a character sequence at newline characters, keeping empty
pieces (`acc` holds the current piece reversed). -/
def splitCharsOnNl : List Char → List Char → List String
  | [], acc => [String.mk acc.reverse]
  | c :: cs, acc =>
    if c = Char.ofNat 10 then String.mk acc.reverse :: splitCharsOnNl cs []
    else splitCharsOnNl cs (c :: acc)

/-- Source `strings.Split(s, "\n")` as used by diffContent: the pieces between
newlines, with `""` yielding `[""]` and a trailing newline yielding a
trailing empty piece. -/
def splitLines (s : String) : List String :=
  splitCharsOnNl s.data []

/-- Indexing with empty-string padding: Go reads `oldLines[i]` when
`i < len(oldLines)` and leaves the zero value `""` otherwise. -/
def lineAt (xs : List String) (i : Nat) : String :=
  (xs.get? i).getD ""

/-- The body of diffContent's `for i := 0; i < maxLen; i++` loop, produced
for one index `i` (lineNum is `i+1`). -/
def diffEntry (oldLines newLines : List String) (i : Nat) : List DiffLine :=
  let oldLine := lineAt oldLines i
  let newLine := lineAt newLines i
  if oldLine = newLine then
    [⟨"unchanged", (i : Int) + 1, newLine⟩]
  else
    (if oldLine ≠ "" then [⟨"remove", (i : Int) + 1, oldLine⟩] else []) ++
    (if newLine ≠ "" then [⟨"add", (i : Int) + 1, newLine⟩] else [])

/-- The loop of diffContent, running indices `i, i+1, …, maxLen-1`
(structural recursion on the remaining count). -/
def diffLoop (oldLines newLines : List String) : Nat → Nat → List DiffLine
  | _, 0 => []
  | i, remaining + 1 =>
      diffEntry oldLines newLines i ++ diffLoop oldLines newLines (i + 1) remaining

/-- Source `diffContent` (part_008): a simple line-by-line textual comparison.
Splits both contents on newlines, then walks indices `0 … maxLen-1`
emitting unchanged / remove / add entries. -/
def diffContent (oldContent newContent : String) : List DiffLine :=
  let oldLines := splitLines oldContent
  let newLines := splitLines newContent
  let maxLen := max oldLines.length newLines.length
  diffLoop oldLines newLines 0 maxLen

/-- Source `service.DiffResult` (part_008). -/
structure DiffResult where
  fromVersion : Int
  toVersion   : Int
  changes     : List DiffLine
  deriving DecidableEq, Repr

/-! ## Persistent store and the config / version services -/

/-- External library functions used by the services, kept abstract
(they are outside this repository): `crypto/sha256` hex digest,
`encoding/json`'s `json.Valid`, and the `net` package's IP parsing /
CIDR containment. -/
structure Ext where
  sha256hex    : String → String
  jsonValid    : String → Bool
  parseIPOk    : String → Bool
  cidrContains : String → String → Bool

/-- Source `generateHash` / `GenerateHash` (part_010, part_008): hex SHA-256 of
the content truncated to 16 characters. -/
def generateHash (ext : Ext) (content : String) : String :=
  (ext.sha256hex content).take 16

/-- The relational store owned by the engine: configs, version rows and
release rows, plus the auto-increment release id and the
`autoCreateTime` clock used for `Release.ReleasedAt`. -/
structure Store where
  configs       : List Config
  versions      : List ConfigVersion
  releases      : List Release
  nextReleaseID : Int
  now           : Nat
  deriving Repr

/-- Source `ConfigRepository.GetByID`: point read of a config row. -/
def findConfig (st : Store) (id : Int) : Option Config :=
  st.configs.find? (fun c => c.id == id)

/-- Source `VersionRepository.GetByConfigAndVersion`: point read of one version row. -/
def findVersion (st : Store) (configID v : Int) : Option ConfigVersion :=
  st.versions.find? (fun r => r.configID == configID && r.version == v)

/-- Source `ConfigRepository.Update` (gorm `Save`): replace the config row with
the same primary key. -/
def saveConfig (st : Store) (c : Config) : Store :=
  { st with configs := st.configs.map (fun x => if x.id == c.id then c else x) }

/-- Source `ReleaseRepository.GetByID`. -/
def findRelease (st : Store) (id : Int) : Option Release :=
  st.releases.find? (fun r => r.id == id)

/-- Source `ReleaseRepository.Update` (gorm `Save`): replace by primary key. -/
def saveRelease (st : Store) (r : Release) : Store :=
  { st with releases := st.releases.map (fun x => if x.id == r.id then r else x) }

/-- Source `ConfigService.Update` (part_010).  The two persistent writes —
`versionRepo.Create` then `configRepo.Update` — are separate store calls
with no surrounding transaction; `createFails` / `updateFails` inject an
I/O failure of the respective call (the failed call performs nothing,
writes already issued stay). -/
def configUpdate (ext : Ext) (st : Store) (id : Int)
    (content message author : String)
    (createFails updateFails : Bool) : Except GoErr ConfigVersion × Store :=
  match findConfig st id with
  | none => (.error .configNotFound, st)
  | some config =>
    if config.fileType = "json" ∧ ¬ ext.jsonValid content then
      (.error .invalidJSON, st)
    else
      let newVersion := config.currentVersion + 1
      let commitHash := generateHash ext content
      let message := if message = "" then "更新配置" else message
      let version : ConfigVersion :=
        { configID := id, version := newVersion, content := content,
          commitHash := commitHash, commitMessage := message, author := author }
      if createFails then (.error .storeFailure, st)
      else
        let st1 := { st with versions := st.versions ++ [version] }
        if updateFails then (.error .storeFailure, st1)
        else
          let st2 := saveConfig st1 { config with currentVersion := newVersion }
          (.ok version, st2)

/-- Source `VersionService.Rollback` (part_008): reads the target version, then
appends a new version with the content of the target and the
auto-generated message built from the single code point 48 + toVersion
(the Go expression string(rune(toVersion + 48))), then advances the
pointer. -/
def versionRollback (ext : Ext) (st : Store) (configID toVersion : Int)
    (author : String)
    (createFails updateFails : Bool) : Except GoErr ConfigVersion × Store :=
  match findVersion st configID toVersion with
  | none => (.error .versionNotFound, st)
  | some targetVersion =>
    match findConfig st configID with
    | none => (.error .configNotFound, st)
    | some config =>
      let newVersionNum := config.currentVersion + 1
      let commitHash := generateHash ext targetVersion.content
      let newVersion : ConfigVersion :=
        { configID := configID, version := newVersionNum,
          content := targetVersion.content, commitHash := commitHash,
          commitMessage :=
            "回滚到版本 " ++ String.singleton (Char.ofNat ((toVersion + 48).toNat)),
          author := author }
      if createFails then (.error .storeFailure, st)
      else
        let st1 := { st with versions := st.versions ++ [newVersion] }
        if updateFails then (.error .storeFailure, st1)
        else
          let st2 := saveConfig st1 { config with currentVersion := newVersionNum }
          (.ok newVersion, st2)

/-! ## NotificationService (part_012) -/

/-- Source `service.ConfigChange` (part_012). -/
structure ConfigChange where
  configID   : Int
  configName : String
  nspace     : String
  env        : String
  version    : Int
  changeType : String
  deriving DecidableEq, Repr

/-- The in-process subscriber table: client id → buffered delivery
channel, modelled as the list of undelivered events (Go buffer
capacity 10). -/
structure NotifState where
  subscribers : List (String × List ConfigChange)
  deriving Repr

/-- Go map lookup `s.subscribers[clientID]`. -/
def subQueue (st : NotifState) (clientID : String) : Option (List ConfigChange) :=
  (st.subscribers.find? (fun p => p.1 == clientID)).map (·.2)

/-- Source `NotificationService.Subscribe` (part_012): installs a fresh channel
of capacity 10 for `clientID`.  The `configIDs` interest set is a
parameter of the Go function but is not stored anywhere. -/
def subscribe (st : NotifState) (clientID : String) (_configIDs : List Int) : NotifState :=
  { subscribers :=
      (clientID, ([] : List ConfigChange)) ::
        st.subscribers.filter (fun p => p.1 ≠ clientID) }

/-- Source `NotificationService.Unsubscribe` (part_012): closes and removes the
channel if present (idempotent). -/
def unsubscribe (st : NotifState) (clientID : String) : NotifState :=
  { subscribers := st.subscribers.filter (fun p => p.1 ≠ clientID) }

/-- Non-blocking send on a buffered channel of capacity 10
(`select { case ch <- change: default: }`): append when there is room,
skip when the buffer is full. -/
def chanSend (q : List ConfigChange) (c : ConfigChange) : List ConfigChange :=
  if q.length < 10 then q ++ [c] else q

/-- Source `NotificationService.NotifyChange` (part_012): iterates over every
registered subscriber and performs the non-blocking send on each channel
— no filtering by config id happens here. -/
def notifyChange (st : NotifState) (change : ConfigChange) : NotifState :=
  { subscribers := st.subscribers.map (fun p => (p.1, chanSend p.2 change)) }

/-! ## GrayReleaseService (part_013) and ReleaseRepository (release.go) -/

/-- Source `ReleaseRepository.GetActiveGrayRelease` (release.go): the release
with `status = gray` for (configID, env), if any. -/
def getActiveGrayRelease (st : Store) (configID : Int) (env : String) : Option Release :=
  st.releases.find?
    (fun r => r.configID == configID && r.environment == env && r.status == "gray")

/-- The row with the greatest `releasedAt` (gorm
`Order("released_at DESC").First`); ties keep the earlier row. -/
def latestByReleasedAt : List Release → Option Release
  | [] => none
  | r :: rs =>
    match latestByReleasedAt rs with
    | none => some r
    | some m => if m.releasedAt > r.releasedAt then some m else some r

/-- Source `ReleaseRepository.GetByConfigAndEnv` (release.go): latest release for
(configID, env) whose status is released or gray. -/
def getByConfigAndEnv (st : Store) (configID : Int) (env : String) : Option Release :=
  latestByReleasedAt
    (st.releases.filter
      (fun r => r.configID == configID && r.environment == env &&
        (r.status == "released" || r.status == "gray")))

/-- Source `service.GrayReleaseRequest` (part_013). -/
structure GrayReleaseRequest where
  configID    : Int
  environment : String
  version     : Int
  ruleType    : String
  percentage  : Int
  clientIDs   : List String
  ipRanges    : List String
  deriving Repr

/-- Source `GrayReleaseService.Create` (part_013): rejects when a gray release is
already active for (configID, env); defaults version 0 to the document's
current version; validates the version row exists; persists one release
with status gray. -/
def grayCreate (st : Store) (req : GrayReleaseRequest) (author : String)
    (createFails : Bool) : Except GoErr Release × Store :=
  match findConfig st req.configID with
  | none => (.error .configNotFound, st)
  | some config =>
    match getActiveGrayRelease st req.configID req.environment with
    | some _ => (.error .grayReleaseActive, st)
    | none =>
      let version := if req.version == 0 then config.currentVersion else req.version
      match findVersion st req.configID version with
      | none => (.error .versionNotFound, st)
      | some _ =>
        let rules : GrayRules :=
          { ruleType := req.ruleType, percentage := req.percentage,
            clientIDs := req.clientIDs, ipRanges := req.ipRanges }
        let release : Release :=
          { id := st.nextReleaseID, projectID := config.projectID,
            configID := req.configID, version := version,
            environment := req.environment, status := "gray",
            releaseType := "gray", grayRules := rules,
            grayPercentage := req.percentage, releasedBy := author,
            releasedAt := st.now }
        if createFails then (.error .storeFailure, st)
        else
          (.ok release,
           { st with releases := st.releases ++ [release],
                     nextReleaseID := st.nextReleaseID + 1,
                     now := st.now + 1 })

/-- Source `GrayReleaseService.matchClientID` (part_013): exact match, or prefix
match against an entry with a trailing `*`. -/
def matchClientID (clientID : String) (allowedIDs : List String) : Bool :=
  allowedIDs.any (fun id =>
    id == clientID ||
      (id.endsWith "*" && clientID.startsWith (id.dropRight 1)))

/-- Source `GrayReleaseService.matchIPRange` (part_013): no match when the client
IP does not parse; otherwise CIDR containment for entries with a slash,
exact string equality for the rest (`net` calls abstracted in `Ext`). -/
def matchIPRangeSvc (ext : Ext) (clientIP : String) (ipRanges : List String) : Bool :=
  if ¬ ext.parseIPOk clientIP then false
  else ipRanges.any (fun rangeStr =>
    if rangeStr.contains (Char.ofNat 47) then ext.cidrContains rangeStr clientIP
    else rangeStr == clientIP)

/-- The UTF-8 bytes of a Go string, as fed to `h.Write([]byte(clientID))`. -/
def strBytes (s : String) : List Nat :=
  s.toUTF8.toList.map (fun b => b.toNat)

/-- Source `GrayReleaseService.ShouldUseGrayRelease` (part_013): no active gray
release (or an unknown rule type) means "out"; otherwise the rule decides. -/
def shouldUseGrayRelease (ext : Ext) (st : Store) (configID : Int)
    (env clientID clientIP : String) : Bool × Option Release :=
  match getActiveGrayRelease st configID env with
  | none => (false, none)
  | some grayRelease =>
    let rules := grayRelease.grayRules   -- JSON round-trip of GrayRules
    let shouldUse :=
      if rules.ruleType == "percentage" then
        matchPercentage (strBytes clientID) rules.percentage
      else if rules.ruleType == "client_id" then
        matchClientID clientID rules.clientIDs
      else if rules.ruleType == "ip_range" then
        matchIPRangeSvc ext clientIP rules.ipRanges
      else false
    if shouldUse then (true, some grayRelease) else (false, none)

/-- Source `GrayReleaseService.Promote` (part_013): only from status gray; marks
the release promoted, then creates a new full release pointing at the
same version.  `updateFails` / `createFails` inject I/O failures of the
two store writes. -/
def grayPromote (st : Store) (releaseID : Int) (author : String)
    (updateFails createFails : Bool) : Except GoErr Release × Store :=
  match findRelease st releaseID with
  | none => (.error .grayReleaseNotFound, st)
  | some release =>
    if release.status ≠ "gray" then (.error .onlyPromoteGray, st)
    else
      if updateFails then (.error .storeFailure, st)
      else
        let st1 := saveRelease st { release with status := "promoted" }
        let fullRelease : Release :=
          { id := st1.nextReleaseID, projectID := release.projectID,
            configID := release.configID, version := release.version,
            environment := release.environment, status := "released",
            releaseType := "full",
            grayRules := { ruleType := "", percentage := 0, clientIDs := [], ipRanges := [] },
            grayPercentage := 0, releasedBy := author, releasedAt := st1.now }
        if createFails then (.error .storeFailure, st1)
        else
          (.ok fullRelease,
           { st1 with releases := st1.releases ++ [fullRelease],
                      nextReleaseID := st1.nextReleaseID + 1,
                      now := st1.now + 1 })

/-- Modelled from the spec: `Resolve(docID, env, callerID, callerIP) →
effectiveVersion`.  The source provides the pieces (ShouldUseGrayRelease,
GetGrayReleaseVersion, ReleaseRepository.GetByConfigAndEnv, the
document's CurrentVersion) but contains no function composing them, so
the composition follows §4.2 of the spec: if the caller is in an active
gray cohort, the gray release's version; otherwise the latest full
release's version; otherwise the document's current version (0 when the
document itself is absent). -/
def resolve (ext : Ext) (st : Store) (configID : Int)
    (env clientID clientIP : String) : Int :=
  match shouldUseGrayRelease ext st configID env clientID clientIP with
  | (true, some grayRelease) => grayRelease.version
  | _ =>
    match getByConfigAndEnv st configID env with
    | some release => release.version
    | none =>
      match findConfig st configID with
      | some config => config.currentVersion
      | none => 0

/-! ## AccessGuard: signature middleware (signature.go) -/

/-- The key row fields consulted by SignatureAuth (`model.ProjectKey`). -/
structure SigKey where
  accessKey     : String
  secretKeyHash : String
  isActive      : Bool
  deriving DecidableEq, Repr

/-- The request fields SignatureAuth reads: method, URL path, query
parameters (key → values), the access-key header and query fallback, and
the three signing headers. -/
structure SigRequest where
  method          : String
  path            : String
  query           : List (String × List String)
  accessKeyHeader : String
  accessKeyQuery  : String
  signature       : String
  timestamp       : String
  nonce           : String
  deriving Repr

/-- Insert into a ≤-sorted list of strings. -/
def insertStr (s : String) : List String → List String
  | [] => [s]
  | t :: ts => if s ≤ t then s :: t :: ts else t :: insertStr s ts

/-- Source `sort.Strings`: ascending lexicographic sort. -/
def sortStrings (xs : List String) : List String :=
  xs.foldr insertStr []

/-- The values of one query key (`queryParams[k]`). -/
def queryValues (query : List (String × List String)) (k : String) : List String :=
  ((query.find? (fun p => p.1 == k)).map (·.2)).getD []

/-- Source `buildStringToSign` (signature.go): METHOD, path, the sorted
`k=v` query pairs (key "signature" excluded) joined by `&`, access key,
timestamp and nonce, all joined by newlines. -/
def buildStringToSign (method path : String) (query : List (String × List String))
    (accessKey timestamp nonce : String) : String :=
  let sortedKeys := sortStrings ((query.map (·.1)).filter (fun k => k ≠ "signature"))
  let queryParts := sortedKeys.flatMap (fun k => (queryValues query k).map (fun v => k ++ "=" ++ v))
  String.intercalate "\x0a"
    [method, path, String.intercalate "&" queryParts, accessKey, timestamp, nonce]

/-- Outcome of a middleware: abort with an HTTP status and error code, or
fall through to the handler. -/
inductive MwOutcome where
  | aborted (status : Nat) (code : String)
  | next
  deriving DecidableEq, Repr

/-- The access key SignatureAuth reads: the X-Access-Key header, falling
back to the access_key query parameter. -/
def accessKeyOf (req : SigRequest) : String :=
  if req.accessKeyHeader ≠ "" then req.accessKeyHeader else req.accessKeyQuery

/-- Source `SignatureAuth` (signature.go).  `hmacHex` abstracts
`calculateSignature` (hex HMAC-SHA256, message then key), `parseInt64`
abstracts `strconv.ParseInt(…, 10, 64)`, `db` is the project-key table,
`now` the server's Unix time.  Note the second branch: a request that
carries an access key but no `X-Signature` header falls through
unconditionally — there is no configuration parameter guarding it. -/
def signatureAuth (hmacHex : String → String → String)
    (parseInt64 : String → Option Int) (db : List SigKey) (now : Int)
    (req : SigRequest) : MwOutcome :=
  let accessKey := accessKeyOf req
  if accessKey = "" then .aborted 401 "UNAUTHORIZED"
  else if req.signature = "" then .next   -- 向后兼容: skip signature checking
  else
    match parseInt64 req.timestamp with
    | none => .aborted 401 "INVALID_SIGNATURE"    -- 无效的时间戳
    | some ts =>
      if (now - ts).natAbs > 300 then .aborted 401 "INVALID_SIGNATURE"  -- 请求已过期
      else
        match db.find? (fun k => k.accessKey == accessKey && k.isActive) with
        | none => .aborted 401 "UNAUTHORIZED"     -- 无效的 Access Key
        | some key =>
          let expected :=
            hmacHex (buildStringToSign req.method req.path req.query accessKey
                      req.timestamp req.nonce)
              key.secretKeyHash
          if req.signature ≠ expected then .aborted 401 "INVALID_SIGNATURE"
          else .next

/-! ## AccessGuard: OptionalAuth / RequirePermission (auth.go) and the
public /api/v1 routes (the router registration) -/

/-- Source `model.Permissions` (internal/model/key.go). -/
structure Permissions where
  read    : Bool
  write   : Bool
  del     : Bool   -- source field Delete
  release : Bool
  admin   : Bool
  decrypt : Bool
  deriving DecidableEq, Repr

/-- Source `middleware.AuthContext` (auth.go). -/
structure AuthContext where
  userID      : Int
  username    : String
  accessKeyID : Int
  projectID   : Int
  permissions : Permissions
  deriving DecidableEq, Repr

/-- Outcome of OptionalAuth: abort, or proceed with an auth context
stored on the request. -/
inductive AuthOutcome where
  | aborted (status : Nat) (code : String)
  | ctxSet (ctx : AuthContext)
  deriving DecidableEq, Repr

/-- Source `OptionalAuth` (auth.go): a bearer token routes to JWT auth, an
access key (header, else query) routes to access-key auth — both
abstracted here as the outcomes `jwtBranch` / `keyBranch` — and a
request carrying neither is admitted with read-only permissions. -/
def optionalAuth (authHeader accessKeyHeader accessKeyQuery : String)
    (jwtBranch keyBranch : AuthOutcome) : AuthOutcome :=
  if authHeader ≠ "" ∧ authHeader.startsWith "Bearer " then jwtBranch
  else
    let accessKey := if accessKeyHeader ≠ "" then accessKeyHeader else accessKeyQuery
    if accessKey ≠ "" then keyBranch
    else
      .ctxSet
        { userID := 0, username := "", accessKeyID := 0, projectID := 0,
          permissions :=
            { read := true, write := false, del := false,
              release := false, admin := false, decrypt := false } }

/-- Source `RequirePermission` (auth.go): 401 without an auth context, 403 when
the context's permission set lacks the named capability. -/
def requirePermission (permission : String) (ctxOpt : Option AuthContext) : MwOutcome :=
  match ctxOpt with
  | none => .aborted 401 "UNAUTHORIZED"
  | some ctx =>
    let allowed :=
      if permission == "read" then ctx.permissions.read
      else if permission == "write" then ctx.permissions.write
      else if permission == "delete" then ctx.permissions.del
      else if permission == "release" then ctx.permissions.release
      else if permission == "admin" then ctx.permissions.admin
      else if permission == "decrypt" then ctx.permissions.decrypt
      else false
    if ¬ allowed then .aborted 403 "FORBIDDEN" else .next

/-- One route of the public v1 group with its per-route permission
middleware, if any. -/
structure V1Route where
  method       : String
  path         : String
  permRequired : Option String
  deriving DecidableEq, Repr

/-- The `/api/v1` config routes exactly as registered (version.go,
RegisterRoutes): GET /config and GET /config/watch carry no permission
middleware; PUT /config and POST /config require "write". -/
def v1ConfigRoutes : List V1Route :=
  [ { method := "GET",  path := "/config",       permRequired := none },
    { method := "PUT",  path := "/config",       permRequired := some "write" },
    { method := "POST", path := "/config",       permRequired := some "write" },
    { method := "GET",  path := "/config/watch", permRequired := none } ]

/-- The permission layer seen by a request on one v1 route: the route's
RequirePermission middleware when present, otherwise fall-through. -/
def v1PermissionGate (route : V1Route) (ctx : AuthContext) : MwOutcome :=
  match route.permRequired with
  | none => .next
  | some p => requirePermission p (some ctx)

/-! ## Long-poll watch handler (part_008, PublicConfigHandler.Watch) -/

/-- The version row with the greatest version number
(`Order("version DESC").First` of VersionRepository.GetLatest). -/
def latestVersionRow : List ConfigVersion → Option ConfigVersion
  | [] => none
  | r :: rs =>
    match latestVersionRow rs with
    | none => some r
    | some m => if m.version > r.version then some m else some r

/-- Source `ConfigService.GetByAccessKey` (part_010): defaults namespace to
"application" and env to "default", resolves the document by
(projectID, namespace, env, name), then fetches its latest version row
(absent latest is not an error). -/
def getByAccessKey (st : Store) (projectID : Int)
    (configName nspace env : String) : Except GoErr (Config × Option ConfigVersion) :=
  let nspace := if nspace = "" then "application" else nspace
  let env := if env = "" then "default" else env
  match st.configs.find?
      (fun c => c.projectID == projectID && c.nspace == nspace &&
        c.environment == env && c.name == configName) with
  | none => .error .configNotFound
  | some config =>
    .ok (config, latestVersionRow (st.versions.filter (fun r => r.configID == config.id)))

/-- The query parameters the Watch handler reads.  `versionParam` /
`timeoutParam` are the `strconv.Atoi` results of the respective query
strings (`none` = parameter missing; a present-but-unparsable value is
`some 0`, which is what the ignored-error `Atoi` yields). -/
structure WatchParams where
  projectID    : Int
  nameParam    : String
  nsParam      : String
  envParam     : String
  versionParam : Option Int
  timeoutParam : Option Int
  deriving Repr

/-- The effective timeout: default 30, a supplied value clamped into
1 … 60. -/
def watchTimeout (timeoutParam : Option Int) : Int :=
  match timeoutParam with
  | none => 30
  | some t =>
    let t1 := if t > 60 then 60 else t
    if t1 < 1 then 1 else t1

/-- The synchronous phase of Watch: abort on missing auth / name /
document; answer immediately when the live version is newer than the
caller's; otherwise subscribe and wait. -/
inductive WatchStep where
  | unauthorized
  | badRequest
  | notFound
  | changedNow (name nspace env : String) (version : Int) (content : String)
  | subscribeAndWait (timeout : Int) (configID : Int)
  deriving DecidableEq, Repr

/-- Source `PublicConfigHandler.Watch` (part_008), up to the `select`: the
synchronous check `version.Version > currentVersion` answers at once
with the latest version and content; otherwise the handler subscribes
(fresh uuid client id) and blocks. -/
def watchCheck (st : Store) (p : WatchParams) : WatchStep :=
  if p.projectID == 0 then .unauthorized
  else if p.nameParam = "" then .badRequest
  else
    let currentVersion := p.versionParam.getD 0
    let timeout := watchTimeout p.timeoutParam
    match getByAccessKey st p.projectID p.nameParam p.nsParam p.envParam with
    | .error _ => .notFound
    | .ok (config, versionOpt) =>
      match versionOpt with
      | some version =>
        if version.version > currentVersion then
          .changedNow config.name config.nspace config.environment
            version.version version.content
        else .subscribeAndWait timeout config.id
      | none => .subscribeAndWait timeout config.id

/-- What woke the blocked handler: a channel delivery (a nil pointer is
possible when the channel is closed), the timeout, or the client
connection closing. -/
inductive WaitOutcome where
  | received (change : Option ConfigChange)
  | timedOut
  | ctxDone
  deriving DecidableEq, Repr

/-- The handler's final answer. -/
inductive WatchResult where
  | changed (name nspace env : String) (version : Int) (content : String)
  | notModified
  | connectionClosed
  deriving DecidableEq, Repr

/-- The `select` of Watch (part_008): timeout yields 304; a closed
connection yields no response; a delivered event is answered with a
re-fetched latest version only when it is non-nil and for this config,
and every fall-through path ends in 304.  `st` is the store at wake-up
time (it may have changed while blocked). -/
def watchAfterWait (st : Store) (p : WatchParams) (configID : Int)
    (outcome : WaitOutcome) : WatchResult :=
  match outcome with
  | .timedOut => .notModified
  | .ctxDone => .connectionClosed
  | .received changeOpt =>
    match changeOpt with
    | some change =>
      if change.configID == configID then
        match getByAccessKey st p.projectID p.nameParam p.nsParam p.envParam with
        | .ok (config, some newVersion) =>
          .changed config.name config.nspace config.environment
            newVersion.version newVersion.content
        | _ => .notModified
      else .notModified
    | none => .notModified

/-- Source `VersionService.Diff` (part_008): fetches both version rows
(NotFound when either is absent) and runs the line diff on their raw
contents. -/
def versionDiff (st : Store) (configID fromV toV : Int) : Except GoErr DiffResult :=
  match findVersion st configID fromV with
  | none => .error .versionNotFound
  | some fromVersion =>
    match findVersion st configID toV with
    | none => .error .versionNotFound
    | some toVersion =>
      .ok { fromVersion := fromV, toVersion := toV,
            changes := diffContent fromVersion.content toVersion.content }

/-- True when a diff output has no add / remove entries. -/
def allUnchanged (ls : List DiffLine) : Bool :=
  ls.all (fun l => l.lineType == "unchanged")

/-- Number of active gray releases recorded for a (config, env) pair. -/
def grayCount (st : Store) (configID : Int) (env : String) : Nat :=
  (st.releases.filter
    (fun r => r.configID == configID && r.environment == env && r.status == "gray")).length

/-! ## Concrete fixtures for closed evaluations -/

/-- A concrete instantiation of the abstracted external library calls,
used only to evaluate the model at closed inputs: the digest is constant
(no claim depends on digest values) and `jsonValid` answers `true`,
which agrees with `json.Valid` on every body these evaluations use. -/
def extStub : Ext :=
  { sha256hex := fun _ => "",
    jsonValid := fun _ => true,
    parseIPOk := fun _ => false,
    cidrContains := fun _ _ => false }

/-- A document at version 3 with file type json. -/
def c1Config : Config :=
  { id := 1, projectID := 1, name := "app", nspace := "application",
    environment := "default", fileType := "json", currentVersion := 3 }

/-- The store holding only `c1Config`. -/
def c1Store : Store :=
  { configs := [c1Config], versions := [], releases := [],
    nextReleaseID := 1, now := 0 }

/-! ## Theorems -/

/-- C1.  The claim's success path holds — the new version number is
`currentVersion + 1` — but the insert and the pointer advance are two
separate store writes with no transaction: when the pointer update
fails after a successful insert, the call errors while the version row
for number 4 is already persisted and `currentVersion` still reads 3,
exactly the partial write the claim rules out. -/
theorem configUpdate_orphan_row_on_pointer_failure :
    (configUpdate extStub c1Store 1 "\x7b\x7d" "msg" "alice" false true).1
        = .error .storeFailure ∧
    ((configUpdate extStub c1Store 1 "\x7b\x7d" "msg" "alice" false true).2.versions.map
        (·.version)) = [4] ∧
    (findConfig (configUpdate extStub c1Store 1 "\x7b\x7d" "msg" "alice" false true).2 1).map
        (·.currentVersion) = some 3 := by
  refine ⟨rfl, rfl, rfl⟩

/-- C6.  matchPercentage is exactly the deterministic bucket test
`fnv32a(callerID) mod 100 < p` (the `p ≤ 0` and `p ≥ 100` short-circuits
agree with it); p = 0 admits nobody and p ≥ 100 admits everybody.
Determinism is immediate: the decision is a pure function of the byte
string and p. -/
theorem matchPercentage_deterministic_bucketing (c : List Nat) (p : Int) :
    (matchPercentage c p = true ↔ (fnv32a c : Int) % 100 < p) ∧
    matchPercentage c 0 = false ∧
    (100 ≤ p → matchPercentage c p = true) := by
  have hb0 : (0 : Int) ≤ (fnv32a c : Int) % 100 := Int.emod_nonneg _ (by norm_num)
  have hb99 : (fnv32a c : Int) % 100 < 100 := Int.emod_lt_of_pos _ (by norm_num)
  refine ⟨?_, by simp [matchPercentage], ?_⟩
  · unfold matchPercentage
    split_ifs with h0 h100
    · constructor
      · intro h; simp at h
      · intro h; exfalso; omega
    · constructor
      · intro _; omega
      · intro _; rfl
    · simp
  · intro h
    unfold matchPercentage
    split_ifs
    all_goals first | rfl | (exfalso; omega)

/-- Witness for C6 at p = 100 and caller bytes "hi". -/
theorem matchPercentage_deterministic_bucketing_witness :
    matchPercentage [104, 105] 100 = true :=
  (matchPercentage_deterministic_bucketing [104, 105] 100).2.2 (by norm_num)

/-- C10.  A v1 request with neither bearer token nor access key is
admitted by OptionalAuth with permissions exactly read; on the four
public config routes as registered, the permission layer then denies
PUT /config and POST /config with 403 FORBIDDEN and imposes nothing on
GET /config and GET /config/watch. -/
theorem v1_anonymous_read_only_permissions (jwtBranch keyBranch : AuthOutcome) :
    optionalAuth "" "" "" jwtBranch keyBranch =
      .ctxSet { userID := 0, username := "", accessKeyID := 0, projectID := 0,
                permissions := { read := true, write := false, del := false,
                                 release := false, admin := false, decrypt := false } } ∧
    v1ConfigRoutes.map (fun r =>
        v1PermissionGate r
          { userID := 0, username := "", accessKeyID := 0, projectID := 0,
            permissions := { read := true, write := false, del := false,
                             release := false, admin := false, decrypt := false } }) =
      [.next, .aborted 403 "FORBIDDEN", .aborted 403 "FORBIDDEN", .next] := by
  exact ⟨rfl, rfl⟩

/-- C8.  Rollback to version 10 of a document at currentVersion 10:
the appended version is numbered 11 and its content is byte-identical to
the content of the target, but the auto-generated commit message is the
single code point 48 + 10, i.e. `回滚到版本 :` — it does not reference
version 10 (the string-of-rune conversion slip). -/
theorem versionRollback_at_version_ten :
    (versionRollback extStub
        { configs := [{ id := 1, projectID := 1, name := "app",
                        nspace := "application", environment := "default",
                        fileType := "json", currentVersion := 10 }],
          versions := [{ configID := 1, version := 10, content := "X",
                         commitHash := "", commitMessage := "", author := "" }],
          releases := [], nextReleaseID := 1, now := 0 }
        1 10 "alice" false false).1
      = .ok { configID := 1, version := 11, content := "X", commitHash := "",
              commitMessage := "回滚到版本 :", author := "alice" } := by
  rfl

/-- C8 auxiliary: rollback to an absent version fails NotFound and
leaves the store unchanged. -/
theorem versionRollback_absent_target_not_found
    (ext : Ext) (st : Store) (configID toVersion : Int) (author : String)
    (cf uf : Bool) (h : findVersion st configID toVersion = none) :
    versionRollback ext st configID toVersion author cf uf
      = (.error .versionNotFound, st) := by
  unfold versionRollback
  rw [h]

/-- Witness for the auxiliary rollback theorem. -/
theorem versionRollback_absent_target_not_found_witness :
    versionRollback extStub c1Store 1 7 "alice" false false
      = (.error .versionNotFound, c1Store) :=
  versionRollback_absent_target_not_found extStub c1Store 1 7 "alice" false false rfl

/-- C7 counterexample.  SignatureAuth takes no backward-compatibility
configuration at all; by default a request carrying an access key but no
X-Signature header falls through unsigned — here even though the key
table is empty, so the key was never validated. -/
theorem unsigned_request_passes_by_default :
    signatureAuth (fun _ _ => "") (fun _ => none) [] 0
      { method := "GET", path := "/api/v1/config", query := [],
        accessKeyHeader := "ak", accessKeyQuery := "", signature := "",
        timestamp := "", nonce := "" } = .next := by
  rfl

/-- C3 counterexample.  A subscriber registered with interest set
containing only config 2 still receives an event for config 1:
NotifyChange ignores interest sets entirely. -/
theorem notifyChange_ignores_interest_set :
    subQueue
      (notifyChange (subscribe { subscribers := [] } "watcher" [2])
        { configID := 1, configName := "app", nspace := "application",
          env := "default", version := 5, changeType := "update" })
      "watcher"
      = some [{ configID := 1, configName := "app", nspace := "application",
                env := "default", version := 5, changeType := "update" }] := by
  rfl

/-- C3 (amended).  NotifyChange performs the non-blocking send on the
channel of every currently-registered subscriber, whatever interest set
was passed to Subscribe: a subscriber with room in its queue (capacity
10) receives the event appended, a full queue is skipped, and the
publisher never waits. -/
theorem notifyChange_delivers_to_every_subscriber
    (st : NotifState) (clientID : String) (q : List ConfigChange)
    (change : ConfigChange) (h : subQueue st clientID = some q) :
    subQueue (notifyChange st change) clientID
      = some (if q.length < 10 then q ++ [change] else q) := by
  unfold subQueue at h
  unfold subQueue notifyChange
  simp only [List.find?_map]
  have hcomp :
      ((fun (x : String × List ConfigChange) => x.1 == clientID) ∘
        (fun p => (p.1, chanSend p.2 change)))
        = fun (p : String × List ConfigChange) => p.1 == clientID := by
    funext p; rfl
  rw [hcomp]
  cases hf : st.subscribers.find? (fun p => p.1 == clientID) with
  | none => rw [hf] at h; simp at h
  | some pr =>
    rw [hf] at h
    have h2 : pr.2 = q := by simpa using h
    subst h2
    simp [chanSend]

/-- Witness for the C3 amended theorem: one registered subscriber with
an empty queue receives the published event. -/
theorem notifyChange_delivers_to_every_subscriber_witness :
    subQueue
      (notifyChange { subscribers := [("w", [])] }
        { configID := 7, configName := "n", nspace := "ns", env := "e",
          version := 1, changeType := "update" })
      "w"
      = some [{ configID := 7, configName := "n", nspace := "ns", env := "e",
                version := 1, changeType := "update" }] :=
  notifyChange_delivers_to_every_subscriber { subscribers := [("w", [])] } "w" [] _ rfl

/-- C7 (amended).  With an access key present: a missing signature falls
through unsigned unconditionally; a present signature is rejected 401
when the timestamp is more than 300 seconds from the server's clock, and
rejected 401 when it differs from the keyed digest of the canonical
string under the stored key's secret. -/
theorem signatureAuth_rejects_bad_signature_and_stale_timestamp
    (hmacHex : String → String → String) (parseInt64 : String → Option Int)
    (db : List SigKey) (now : Int) (req : SigRequest) (ts : Int) (key : SigKey)
    (hak : accessKeyOf req ≠ "") :
    (req.signature = "" → signatureAuth hmacHex parseInt64 db now req = .next) ∧
    (req.signature ≠ "" → parseInt64 req.timestamp = some ts →
      300 < (now - ts).natAbs →
      signatureAuth hmacHex parseInt64 db now req = .aborted 401 "INVALID_SIGNATURE") ∧
    (req.signature ≠ "" → parseInt64 req.timestamp = some ts →
      (now - ts).natAbs ≤ 300 →
      db.find? (fun k => k.accessKey == accessKeyOf req && k.isActive) = some key →
      req.signature ≠ hmacHex
        (buildStringToSign req.method req.path req.query (accessKeyOf req)
          req.timestamp req.nonce)
        key.secretKeyHash →
      signatureAuth hmacHex parseInt64 db now req = .aborted 401 "INVALID_SIGNATURE") := by
  refine ⟨?_, ?_, ?_⟩
  · intro hs
    simp [signatureAuth, hak, hs]
  · intro hs hparse hstale
    have hnle : ¬ ((now - ts).natAbs ≤ 300) := by omega
    simp [signatureAuth, hak, hs, hparse, hstale, hnle]
  · intro hs hparse hfresh hkey hbad
    have hnotgt : ¬ (300 < (now - ts).natAbs) := by omega
    simp [signatureAuth, hak, hs, hparse, hnotgt, hkey, hbad]

/-- Witness for the C7 amended theorem: a stale timestamp (diff 301s) is
rejected with 401 INVALID_SIGNATURE. -/
theorem signatureAuth_rejects_witness :
    signatureAuth (fun _ _ => "d") (fun _ => some 0) [] 301
      { method := "GET", path := "/c", query := [], accessKeyHeader := "ak",
        accessKeyQuery := "", signature := "sig", timestamp := "0", nonce := "" }
      = .aborted 401 "INVALID_SIGNATURE" :=
  (signatureAuth_rejects_bad_signature_and_stale_timestamp
      (fun _ _ => "d") (fun _ => some 0) [] 301
      { method := "GET", path := "/c", query := [], accessKeyHeader := "ak",
        accessKeyQuery := "", signature := "sig", timestamp := "0", nonce := "" }
      0 { accessKey := "ak", secretKeyHash := "s", isActive := true }
      (by decide)).2.1 (by decide) rfl (by decide)

/-! C2: the diff is a textual line diff, not a structural one. -/

/-- Two version rows whose contents are the same JSON object with keys
in a different order. -/
def c2Store : Store :=
  { configs := [c1Config],
    versions :=
      [ { configID := 1, version := 1, content := "\x7b\"a\":1,\"b\":2\x7d",
          commitHash := "", commitMessage := "", author := "" },
        { configID := 1, version := 2, content := "\x7b\"b\":2,\"a\":1\x7d",
          commitHash := "", commitMessage := "", author := "" } ],
    releases := [], nextReleaseID := 1, now := 0 }

/-- C2 counterexample.  The two contents parse to the same JSON tree
(the same object with keys reordered), yet Diff returns a remove and an
add entry — not an empty change list: the comparison is textual, not
structural, and its change types are add / remove / unchanged with line
numbers, not add / remove / modify with paths. -/
theorem versionDiff_key_reorder_spurious_changes :
    versionDiff c2Store 1 1 2 =
      .ok { fromVersion := 1, toVersion := 2,
            changes :=
              [ { lineType := "remove", lineNum := 1,
                  content := "\x7b\"a\":1,\"b\":2\x7d" },
                { lineType := "add", lineNum := 1,
                  content := "\x7b\"b\":2,\"a\":1\x7d" } ] } := by
  rfl

/-- One diff entry is all-unchanged exactly when the padded lines at
that index coincide. -/
theorem allUnchanged_diffEntry (ol nl : List String) (i : Nat) :
    allUnchanged (diffEntry ol nl i) = true ↔ lineAt ol i = lineAt nl i := by
  unfold diffEntry
  by_cases h : lineAt ol i = lineAt nl i
  · rw [if_pos h]
    simp [allUnchanged, h]
  · rw [if_neg h]
    constructor
    · intro hall
      exfalso
      simp only [allUnchanged, List.all_append, Bool.and_eq_true] at hall
      obtain ⟨h1, h2⟩ := hall
      by_cases ho : lineAt ol i = ""
      · have hn : lineAt nl i ≠ "" := fun e => h (ho.trans e.symm)
        rw [if_pos hn] at h2
        simp at h2
      · rw [if_pos ho] at h1
        simp at h1
    · intro he
      exact absurd he h

/-- The diff loop is all-unchanged exactly when every scanned index has
coinciding padded lines. -/
theorem allUnchanged_diffLoop (ol nl : List String) (n : Nat) : ∀ i,
    allUnchanged (diffLoop ol nl i n) = true ↔
      ∀ j < n, lineAt ol (i + j) = lineAt nl (i + j) := by
  induction n with
  | zero => intro i; simp [diffLoop, allUnchanged]
  | succ n ih =>
    intro i
    have hsplit : allUnchanged (diffLoop ol nl i (n + 1)) =
        (allUnchanged (diffEntry ol nl i) && allUnchanged (diffLoop ol nl (i + 1) n)) := by
      simp [diffLoop, allUnchanged]
    rw [hsplit, Bool.and_eq_true, allUnchanged_diffEntry, ih (i + 1)]
    constructor
    · rintro ⟨h0, hrest⟩ j hj
      cases j with
      | zero => simpa using h0
      | succ j =>
        have hr := hrest j (by omega)
        rw [show i + (j + 1) = (i + 1) + j from by omega]
        exact hr
    · intro h
      refine ⟨by simpa using h 0 (by omega), fun j hj => ?_⟩
      have hr := h (j + 1) (by omega)
      rw [show (i + 1) + j = i + (j + 1) from by omega]
      exact hr

/-- diffContent is all-unchanged exactly when the two contents coincide
line-by-line (missing trailing lines reading as empty). -/
theorem diffContent_line_characterization (a b : String) :
    allUnchanged (diffContent a b) = true ↔
      ∀ i < max (splitLines a).length (splitLines b).length,
        lineAt (splitLines a) i = lineAt (splitLines b) i := by
  unfold diffContent
  rw [allUnchanged_diffLoop]
  simp

/-- C2 (amended).  Diff fetches the two version rows and compares their
raw contents line by line: the change list is free of add / remove
entries precisely when the two texts coincide as padded line sequences —
so equal texts diff clean, while semantically-equal JSON with reordered
keys does not. -/
theorem versionDiff_is_textual_line_diff
    (st : Store) (configID f t : Int) (fv tv : ConfigVersion)
    (hf : findVersion st configID f = some fv)
    (ht : findVersion st configID t = some tv) :
    versionDiff st configID f t =
      .ok { fromVersion := f, toVersion := t,
            changes := diffContent fv.content tv.content } ∧
    (allUnchanged (diffContent fv.content tv.content) = true ↔
      ∀ i < max (splitLines fv.content).length (splitLines tv.content).length,
        lineAt (splitLines fv.content) i = lineAt (splitLines tv.content) i) := by
  constructor
  · unfold versionDiff
    rw [hf, ht]
  · exact diffContent_line_characterization _ _

/-- Witness for the C2 amended theorem at the concrete store. -/
theorem versionDiff_is_textual_line_diff_witness :
    versionDiff c2Store 1 1 2 =
      .ok { fromVersion := 1, toVersion := 2,
            changes := diffContent "\x7b\"a\":1,\"b\":2\x7d" "\x7b\"b\":2,\"a\":1\x7d" } :=
  (versionDiff_is_textual_line_diff c2Store 1 1 2
      { configID := 1, version := 1, content := "\x7b\"a\":1,\"b\":2\x7d",
        commitHash := "", commitMessage := "", author := "" }
      { configID := 1, version := 2, content := "\x7b\"b\":2,\"a\":1\x7d",
        commitHash := "", commitMessage := "", author := "" }
      rfl rfl).1

/-- C5.  CreateGray for a (doc, env) that already has an active gray
release fails with the gray-release-active conflict error and changes no
state; when none is active and the requested version row exists, it
persists exactly one release with status gray for that (doc, env). -/
theorem grayCreate_conflict_and_single_gray
    (st : Store) (req : GrayReleaseRequest) (author : String) (config : Config)
    (hc : findConfig st req.configID = some config) :
    (∀ g, getActiveGrayRelease st req.configID req.environment = some g →
      grayCreate st req author false = (.error .grayReleaseActive, st)) ∧
    (getActiveGrayRelease st req.configID req.environment = none →
      ∀ v, findVersion st req.configID
          (if req.version == 0 then config.currentVersion else req.version) = some v →
      (∃ rel, (grayCreate st req author false).1 = .ok rel ∧ rel.status = "gray" ∧
        rel.configID = req.configID ∧ rel.environment = req.environment) ∧
      grayCount (grayCreate st req author false).2 req.configID req.environment = 1) := by
  constructor
  · intro g hg
    simp [grayCreate, hc, hg]
  · intro hnone v hv
    have hempty : st.releases.filter
        (fun r => r.configID == req.configID && r.environment == req.environment &&
          r.status == "gray") = [] := by
      rw [List.filter_eq_nil_iff]
      intro a ha
      have hn := hnone
      unfold getActiveGrayRelease at hn
      exact List.find?_eq_none.mp hn a ha
    have hv2 := hv
    simp only [beq_iff_eq] at hv2
    constructor
    · simp only [grayCreate, hc, hnone, hv]
      exact ⟨_, rfl, rfl, rfl, rfl⟩
    · simp [grayCreate, hc, hnone, hv2, grayCount, List.filter_append, hempty]

/-- Witness for C5: creating a gray release on a store with no active
gray release yields exactly one gray release row. -/
theorem grayCreate_conflict_and_single_gray_witness :
    grayCount
      (grayCreate
        { configs := [c1Config],
          versions := [{ configID := 1, version := 3, content := "x",
                         commitHash := "", commitMessage := "", author := "" }],
          releases := [], nextReleaseID := 1, now := 0 }
        { configID := 1, environment := "default", version := 3,
          ruleType := "percentage", percentage := 20, clientIDs := [],
          ipRanges := [] }
        "alice" false).2 1 "default" = 1 :=
  ((grayCreate_conflict_and_single_gray
      { configs := [c1Config],
        versions := [{ configID := 1, version := 3, content := "x",
                       commitHash := "", commitMessage := "", author := "" }],
        releases := [], nextReleaseID := 1, now := 0 }
      { configID := 1, environment := "default", version := 3,
        ruleType := "percentage", percentage := 20, clientIDs := [],
        ipRanges := [] }
      "alice" c1Config rfl).2 rfl _ rfl).2

/-- Appending a strictly newest row makes it the latest. -/
theorem latestByReleasedAt_append_newest (xs : List Release) (m : Release)
    (h : ∀ x ∈ xs, x.releasedAt < m.releasedAt) :
    latestByReleasedAt (xs ++ [m]) = some m := by
  induction xs with
  | nil => simp [latestByReleasedAt]
  | cons x xs ih =>
    have hx : x.releasedAt < m.releasedAt := h x (by simp)
    have ih2 := ih (fun y hy => h y (by simp [hy]))
    simp [latestByReleasedAt, ih2, hx]

/-- C4.  Promote of a release that is not in status gray fails with the
only-promote-gray error and changes no state; Promote of the active gray
release succeeds, creates a full release at the same version, and
afterwards resolve yields the promoted version for every caller id and
caller ip. -/
theorem grayPromote_only_from_gray_and_universal
    (ext : Ext) (st : Store) (releaseID : Int) (author : String) (rel : Release)
    (hfind : findRelease st releaseID = some rel)
    (honly : ∀ r ∈ st.releases, r.status = "gray" → r.configID = rel.configID →
      r.environment = rel.environment → r = rel)
    (hfresh : ∀ r ∈ st.releases, r.releasedAt < st.now) :
    (rel.status ≠ "gray" → ∀ uf cf,
      grayPromote st releaseID author uf cf = (.error .onlyPromoteGray, st)) ∧
    (rel.status = "gray" →
      ∃ full, (grayPromote st releaseID author false false).1 = .ok full ∧
        full.version = rel.version ∧ full.status = "released" ∧
        ∀ clientID clientIP,
          resolve ext (grayPromote st releaseID author false false).2
            rel.configID rel.environment clientID clientIP = rel.version) := by
  have hrelmem : rel ∈ st.releases := List.mem_of_find?_eq_some hfind
  constructor
  · intro hs uf cf
    simp [grayPromote, hfind, hs]
  · intro hs
    have hrun : grayPromote st releaseID author false false =
        (.ok { id := st.nextReleaseID, projectID := rel.projectID,
               configID := rel.configID, version := rel.version,
               environment := rel.environment, status := "released",
               releaseType := "full",
               grayRules := { ruleType := "", percentage := 0, clientIDs := [],
                              ipRanges := [] },
               grayPercentage := 0, releasedBy := author, releasedAt := st.now },
         { st with
             releases :=
               (st.releases.map (fun x =>
                 if x.id == rel.id then { rel with status := "promoted" } else x))
                 ++ [{ id := st.nextReleaseID, projectID := rel.projectID,
                       configID := rel.configID, version := rel.version,
                       environment := rel.environment, status := "released",
                       releaseType := "full",
                       grayRules := { ruleType := "", percentage := 0,
                                      clientIDs := [], ipRanges := [] },
                       grayPercentage := 0, releasedBy := author,
                       releasedAt := st.now }],
             nextReleaseID := st.nextReleaseID + 1, now := st.now + 1 }) := by
      simp [grayPromote, hfind, hs, saveRelease]
    refine ⟨{ id := st.nextReleaseID, projectID := rel.projectID,
              configID := rel.configID, version := rel.version,
              environment := rel.environment, status := "released",
              releaseType := "full",
              grayRules := { ruleType := "", percentage := 0, clientIDs := [],
                             ipRanges := [] },
              grayPercentage := 0, releasedBy := author, releasedAt := st.now },
            ?_, rfl, rfl, ?_⟩
    · rw [hrun]
    · intro clientID clientIP
      rw [hrun]
      set full : Release :=
        { id := st.nextReleaseID, projectID := rel.projectID,
          configID := rel.configID, version := rel.version,
          environment := rel.environment, status := "released",
          releaseType := "full",
          grayRules := { ruleType := "", percentage := 0, clientIDs := [],
                         ipRanges := [] },
          grayPercentage := 0, releasedBy := author, releasedAt := st.now }
        with hfull
      set mapped : List Release :=
        st.releases.map (fun x =>
          if x.id == rel.id then { rel with status := "promoted" } else x)
        with hmapped
      set st2 : Store :=
        { st with releases := mapped ++ [full],
                  nextReleaseID := st.nextReleaseID + 1, now := st.now + 1 }
        with hst2
      have hrel2 : st2.releases = mapped ++ [full] := by rw [hst2]
      have hmember : ∀ y ∈ mapped, y.releasedAt < st.now ∧
          ¬ (y.configID == rel.configID && y.environment == rel.environment &&
             y.status == "gray") = true := by
        intro y hy
        rw [hmapped] at hy
        obtain ⟨x, hxmem, hxeq⟩ := List.mem_map.mp hy
        by_cases hid : (x.id == rel.id) = true
        · rw [if_pos hid] at hxeq
          subst hxeq
          refine ⟨hfresh rel hrelmem, ?_⟩
          simp
        · rw [if_neg hid] at hxeq
          subst hxeq
          refine ⟨hfresh x hxmem, ?_⟩
          intro hcontra
          simp only [Bool.and_eq_true, beq_iff_eq] at hcontra
          obtain ⟨⟨hcid, henv⟩, hstat⟩ := hcontra
          have hxr : x = rel := honly x hxmem hstat hcid henv
          rw [hxr] at hid
          simp at hid
      have hga : getActiveGrayRelease st2 rel.configID rel.environment = none := by
        unfold getActiveGrayRelease
        rw [hrel2, List.find?_eq_none]
        intro x hx
        rcases List.mem_append.mp hx with hxm | hxf
        · intro hc
          exact (hmember x hxm).2 hc
        · have hxfull : x = full := by simpa using hxf
          subst hxfull
          simp [hfull]
      have hgb : getByConfigAndEnv st2 rel.configID rel.environment = some full := by
        unfold getByConfigAndEnv
        rw [hrel2, List.filter_append]
        have hfilterfull :
            List.filter (fun r => r.configID == rel.configID &&
              r.environment == rel.environment &&
              (r.status == "released" || r.status == "gray")) [full] = [full] := by
          simp [hfull]
        rw [hfilterfull]
        apply latestByReleasedAt_append_newest
        intro x hxf
        have hxm := (List.mem_filter.mp hxf).1
        exact (hmember x hxm).1
      simp only [resolve, shouldUseGrayRelease, hga, hgb]

/-- A store with one active gray release (id 5, version 3) used to
witness promotion. -/
def c4Store : Store :=
  { configs := [c1Config],
    versions := [{ configID := 1, version := 3, content := "x",
                   commitHash := "", commitMessage := "", author := "" }],
    releases := [{ id := 5, projectID := 1, configID := 1, version := 3,
                   environment := "default", status := "gray",
                   releaseType := "gray",
                   grayRules := { ruleType := "percentage", percentage := 20,
                                  clientIDs := [], ipRanges := [] },
                   grayPercentage := 20, releasedBy := "a", releasedAt := 0 }],
    nextReleaseID := 6, now := 1 }

/-- Witness for C4: after promoting the gray release, resolve returns
the promoted version 3 for an arbitrary caller. -/
theorem grayPromote_only_from_gray_and_universal_witness :
    resolve extStub (grayPromote c4Store 5 "bob" false false).2
      1 "default" "caller9" "10.0.0.1" = 3 := by
  obtain ⟨full, h1, h2, h3, h4⟩ :=
    (grayPromote_only_from_gray_and_universal extStub c4Store 5 "bob"
      { id := 5, projectID := 1, configID := 1, version := 3,
        environment := "default", status := "gray", releaseType := "gray",
        grayRules := { ruleType := "percentage", percentage := 20,
                       clientIDs := [], ipRanges := [] },
        grayPercentage := 20, releasedBy := "a", releasedAt := 0 }
      rfl
      (by intro r hr h1 h2 h3; simp [c4Store] at hr; exact hr)
      (by intro r hr; simp [c4Store] at hr; rw [hr]; exact Nat.zero_lt_one)).2 rfl
  exact h4 "caller9" "10.0.0.1"

/-- C9.  For an authorized watch on an existing document with latest
version `lv`: a last-known version below `lv` is answered immediately
with `lv` and its content (no subscription); otherwise the handler
subscribes with the clamped timeout, a timeout wake-up yields the 304
no-change answer, and any changed answer can only arise from a delivered
event carrying this document's id. -/
theorem watch_longpoll_semantics
    (st st2 : Store) (p : WatchParams) (config : Config) (lv : ConfigVersion)
    (hpid : p.projectID ≠ 0) (hname : p.nameParam ≠ "")
    (hget : getByAccessKey st p.projectID p.nameParam p.nsParam p.envParam
      = .ok (config, some lv)) :
    (p.versionParam.getD 0 < lv.version →
      watchCheck st p = .changedNow config.name config.nspace config.environment
        lv.version lv.content) ∧
    (lv.version ≤ p.versionParam.getD 0 →
      watchCheck st p = .subscribeAndWait (watchTimeout p.timeoutParam) config.id) ∧
    watchAfterWait st2 p config.id .timedOut = .notModified ∧
    (∀ outcome name nspace env v content,
      watchAfterWait st2 p config.id outcome = .changed name nspace env v content →
      ∃ ch, outcome = .received (some ch) ∧ ch.configID = config.id) := by
  have hpidb : (p.projectID == 0) = false := by
    simpa using hpid
  refine ⟨?_, ?_, rfl, ?_⟩
  · intro hlt
    simp [watchCheck, hpidb, hname, hget, hlt]
  · intro hle
    have hnlt : ¬ (p.versionParam.getD 0 < lv.version) := not_lt.mpr hle
    simp [watchCheck, hpidb, hname, hget, hnlt]
  · intro outcome name nspace env v content h
    cases outcome with
    | timedOut => simp [watchAfterWait] at h
    | ctxDone => simp [watchAfterWait] at h
    | received changeOpt =>
      cases changeOpt with
      | none => simp [watchAfterWait] at h
      | some ch =>
        by_cases hb : (ch.configID == config.id) = true
        · exact ⟨ch, rfl, by simpa using hb⟩
        · exfalso
          simp [watchAfterWait, hb] at h

/-- Witness for C9: the caller knows version 1, the live version is 2;
watch answers immediately with version 2 and its content. -/
theorem watch_longpoll_semantics_witness :
    watchCheck
      { configs := [c1Config],
        versions := [{ configID := 1, version := 2, content := "v2",
                       commitHash := "", commitMessage := "", author := "" }],
        releases := [], nextReleaseID := 1, now := 0 }
      { projectID := 1, nameParam := "app", nsParam := "", envParam := "",
        versionParam := some 1, timeoutParam := none }
      = .changedNow "app" "application" "default" 2 "v2" :=
  (watch_longpoll_semantics
      { configs := [c1Config],
        versions := [{ configID := 1, version := 2, content := "v2",
                       commitHash := "", commitMessage := "", author := "" }],
        releases := [], nextReleaseID := 1, now := 0 }
      { configs := [], versions := [], releases := [], nextReleaseID := 1, now := 0 }
      { projectID := 1, nameParam := "app", nsParam := "", envParam := "",
        versionParam := some 1, timeoutParam := none }
      c1Config
      { configID := 1, version := 2, content := "v2",
        commitHash := "", commitMessage := "", author := "" }
      (by decide) (by decide) rfl).1 (by decide)

end ConfigHub
